import Mathlib

/-!
Shallow embedding of the ball-simulation core (`logic.py`): the `Ball`
entity with its per-frame kinematics, and the `GameLogic` simulation with
collision colour mixing, suction, inventory, ejection and the delete zone.

Modelling conventions:
* Python floats are embedded as exact rationals (`ℚ`); all constants in the
  source (0.98, 0.8, 0.6, 0.4, 0.3, 255, …) are exactly representable.
* `math.sqrt` is embedded as `Rat.sqrt`, which agrees with the real square
  root whenever the radicand is the square of a rational; every place a
  theorem below evaluates a square root, the radicand is a perfect square,
  and everywhere else the exact value of the square root is irrelevant to
  the statement proved.
* Python object identity (used by `list.remove` and the membership tests of
  `_process_suction` / `_check_delete_zone`) is embedded as an identity tag
  `oid` carried by each ball and never changed by any operation; fresh balls
  receive a fresh tag from the simulation's `next_oid` counter.
* The random defaults (random colour, velocity, position) are injected as
  explicit parameters: the source draws them from `random`, and no claim
  constrains their distribution.
* `int(x)` applied to the result of a Python float `%` (always nonnegative)
  is `Int.floor`; Python's `x % m` for `m > 0` is `x - m * ⌊x / m⌋`.
-/

/-- A ball: position, radius, colour and velocity, as in `Ball.__init__`.
The field `oid` models Python object identity (see module docstring). -/
structure Ball where
  oid : ℕ
  x : ℚ
  y : ℚ
  radius : ℚ
  color : ℤ × ℤ × ℤ
  velocity : ℚ × ℚ
deriving DecidableEq

/-- Embedding of `Ball.update`: apply friction to the velocity, advance the
position, then clamp-and-reflect independently per axis (if/elif per axis,
reflected component scaled by 0.8). -/
def Ball.update (b : Ball) (screen_width screen_height friction : ℚ) : Ball :=
  let vx := b.velocity.1 * friction
  let vy := b.velocity.2 * friction
  let x := b.x + vx
  let y := b.y + vy
  let xvx : ℚ × ℚ :=
    if x - b.radius < 0 then (b.radius, |vx| * 0.8)
    else if x + b.radius > screen_width then (screen_width - b.radius, -|vx| * 0.8)
    else (x, vx)
  let yvy : ℚ × ℚ :=
    if y - b.radius < 0 then (b.radius, |vy| * 0.8)
    else if y + b.radius > screen_height then (screen_height - b.radius, -|vy| * 0.8)
    else (y, vy)
  { b with x := xvx.1, y := yvy.1, velocity := (xvx.2, yvy.2) }

/-- Embedding of `Ball.distance_to` (Euclidean distance; see the module
docstring for the `Rat.sqrt` convention). -/
def Ball.distance_to (b other : Ball) : ℚ :=
  Rat.sqrt ((b.x - other.x) * (b.x - other.x) + (b.y - other.y) * (b.y - other.y))

/-- Embedding of `Ball.is_colliding`: distance at most the sum of radii. -/
def Ball.is_colliding (b other : Ball) : Bool :=
  decide (b.distance_to other ≤ b.radius + other.radius)

/-- Embedding of `Ball.is_point_inside`: squared distance at most radius². -/
def Ball.is_point_inside (b : Ball) (x y : ℚ) : Bool :=
  decide ((x - b.x) * (x - b.x) + (y - b.y) * (y - b.y) ≤ b.radius * b.radius)

/-- Python's float modulo for a positive modulus: `x - m * ⌊x / m⌋`. -/
def pymod (a m : ℚ) : ℚ := a - m * ⌊a / m⌋

/-- One channel of the pre-darken mix: `int((c1 * 0.6 + c2 * 0.4) % 255)`. -/
def mix_channel (c1 c2 : ℤ) : ℤ :=
  ⌊pymod ((c1 : ℚ) * 0.6 + (c2 : ℚ) * 0.4) 255⌋

/-- The colour produced by `GameLogic._mix_colors`: per-channel weighted mix
reduced mod 255, then, when the brightness (mean of the three channels)
exceeds 200, darkening of the two non-dominant channels (r-dominance checked
first, then g, all strict; any other case darkens r and g). -/
def mixed_color (c1 c2 : ℤ × ℤ × ℤ) : ℤ × ℤ × ℤ :=
  let mixed_r := mix_channel c1.1 c2.1
  let mixed_g := mix_channel c1.2.1 c2.2.1
  let mixed_b := mix_channel c1.2.2 c2.2.2
  let brightness : ℚ := ((mixed_r : ℚ) + (mixed_g : ℚ) + (mixed_b : ℚ)) / 3
  if brightness > 200 then
    if mixed_r > mixed_g ∧ mixed_r > mixed_b then
      (mixed_r, max 50 (mixed_g - 50), max 50 (mixed_b - 50))
    else if mixed_g > mixed_r ∧ mixed_g > mixed_b then
      (max 50 (mixed_r - 50), mixed_g, max 50 (mixed_b - 50))
    else
      (max 50 (mixed_r - 50), max 50 (mixed_g - 50), mixed_b)
  else
    (mixed_r, mixed_g, mixed_b)

/-- The state of `GameLogic`: screen bounds, active balls, inventory, the
delete zone, and the suction state.  `next_oid` is the identity-tag supply
(see the module docstring). -/
structure GameLogic where
  screen_width : ℚ
  screen_height : ℚ
  balls : List Ball
  inventory : List Ball
  delete_zone_size : ℚ
  delete_zone_x : ℚ
  delete_zone_y : ℚ
  suction_range : ℚ
  suction_active : Bool
  suction_mouse_pos : ℚ × ℚ
  next_oid : ℕ
deriving DecidableEq

/-- Embedding of `GameLogic.__init__`. -/
def GameLogic.init (screen_width screen_height : ℚ) : GameLogic :=
  { screen_width := screen_width
    screen_height := screen_height
    balls := []
    inventory := []
    delete_zone_size := 100
    delete_zone_x := screen_width - 100
    delete_zone_y := 0
    suction_range := 100
    suction_active := false
    suction_mouse_pos := (0, 0)
    next_oid := 0 }

/-- Embedding of `GameLogic._mix_colors`: both balls receive the same mixed
colour. -/
def GameLogic.mix_colors (b1 b2 : Ball) : Ball × Ball :=
  let c := mixed_color b1.color b2.color
  ({ b1 with color := c }, { b2 with color := c })

/-- Embedding of `GameLogic.add_ball` with the randomly-drawn defaults
(position, colour, velocity) injected as explicit arguments; the new ball
has the default radius 15 and a fresh identity tag. -/
def GameLogic.add_ball (s : GameLogic) (x y : ℚ) (color : ℤ × ℤ × ℤ)
    (velocity : ℚ × ℚ) : GameLogic × Ball :=
  let ball : Ball :=
    { oid := s.next_oid, x := x, y := y, radius := 15, color := color
      velocity := velocity }
  ({ s with balls := s.balls ++ [ball], next_oid := s.next_oid + 1 }, ball)

/-- One step of the collision double loop: if the balls at indices `i` and
`j` collide, write the mixed colour to both. -/
def collide_step (balls : List Ball) (i j : ℕ) : List Ball :=
  match balls[i]?, balls[j]? with
  | some b1, some b2 =>
    if b1.is_colliding b2 then
      let c := mixed_color b1.color b2.color
      (balls.set i { b1 with color := c }).set j { b2 with color := c }
    else balls
  | _, _ => balls

/-- The index pairs `(i, j)` with `i < j < n`, in the order of the source's
double loop (`i` ascending, then `j` ascending). -/
def pair_indices (n : ℕ) : List (ℕ × ℕ) :=
  (List.range n).flatMap fun i => ((List.range n).drop (i + 1)).map fun j => (i, j)

/-- Embedding of `GameLogic._handle_collisions`: fold the pairwise mixing
step over all index pairs in loop order. -/
def GameLogic.handle_collisions (s : GameLogic) : GameLogic :=
  { s with
    balls := (pair_indices s.balls.length).foldl
      (fun bs p => collide_step bs p.1 p.2) s.balls }

/-- Distance from a ball to the suction focus, as in `_process_suction`. -/
def GameLogic.suction_distance (s : GameLogic) (b : Ball) : ℚ :=
  Rat.sqrt ((b.x - s.suction_mouse_pos.1) * (b.x - s.suction_mouse_pos.1) +
    (b.y - s.suction_mouse_pos.2) * (b.y - s.suction_mouse_pos.2))

/-- The per-ball velocity impulse of `_process_suction`: inside the suction
range, add `dir * pull_strength * 0.3` to the velocity, where `dir` is the
unit vector computed from `(ball.x - mouse_x, ball.y - mouse_y)` (the zero
vector at distance 0). -/
def GameLogic.suction_pull (s : GameLogic) (b : Ball) : Ball :=
  let dx := b.x - s.suction_mouse_pos.1
  let dy := b.y - s.suction_mouse_pos.2
  let distance := s.suction_distance b
  if distance ≤ s.suction_range then
    let pull_strength := (s.suction_range - distance) / s.suction_range
    let pull_strength := min (pull_strength * 5) 10
    let dir_x := if distance > 0 then dx / distance else 0
    let dir_y := if distance > 0 then dy / distance else 0
    { b with velocity := (b.velocity.1 + dir_x * pull_strength * 0.3,
                          b.velocity.2 + dir_y * pull_strength * 0.3) }
  else b

/-- The capture test of `_process_suction`: within the suction range and at
distance below `radius + 10`. -/
def GameLogic.suction_captured (s : GameLogic) (b : Ball) : Bool :=
  decide (s.suction_distance b ≤ s.suction_range) &&
    decide (s.suction_distance b < b.radius + 10)

/-- The removal pass shared by `_process_suction` and `_check_delete_zone`:
for each collected ball, remove (by object identity) its first occurrence
from the list when present, as `list.remove` does. -/
def remove_balls (l rm : List Ball) : List Ball :=
  rm.foldl (fun acc b => acc.eraseP (fun c => c.oid == b.oid)) l

/-- Embedding of `GameLogic._process_suction`: apply the pull to every ball,
append the captured balls to the inventory in iteration order, and remove
them from the active list. -/
def GameLogic.process_suction (s : GameLogic) : GameLogic :=
  let pulled := s.balls.map s.suction_pull
  let balls_to_remove := pulled.filter s.suction_captured
  { s with
    balls := remove_balls pulled balls_to_remove
    inventory := s.inventory ++ balls_to_remove }

/-- Embedding of `GameLogic.eject_ball`, with the randomly-sampled velocity
for the `velocity = None` case injected as the argument `sampled`.  Pops the
last inventory ball, repositions it at the mouse, sets its velocity, and
appends it to the active list. -/
def GameLogic.eject_ball (s : GameLogic) (mouse_x mouse_y : ℚ)
    (velocity : Option (ℚ × ℚ)) (sampled : ℚ × ℚ) : GameLogic × Option Ball :=
  match s.inventory.getLast? with
  | none => (s, none)
  | some b =>
    let ball : Ball :=
      { b with
        x := mouse_x
        y := mouse_y
        velocity := (match velocity with | some v => v | none => sampled) }
    ({ s with inventory := s.inventory.dropLast, balls := s.balls ++ [ball] },
      some ball)

/-- The delete-zone membership test applied to a ball's centre in
`_check_delete_zone`. -/
def GameLogic.in_delete_zone_check (s : GameLogic) (b : Ball) : Bool :=
  decide (s.delete_zone_x ≤ b.x ∧ b.x ≤ s.screen_width ∧
    0 ≤ b.y ∧ b.y ≤ s.delete_zone_size)

/-- Embedding of `GameLogic._check_delete_zone`: collect the balls whose
centre lies in the delete zone, then remove them from the active list. -/
def GameLogic.check_delete_zone (s : GameLogic) : GameLogic :=
  let balls_to_remove := s.balls.filter s.in_delete_zone_check
  { s with balls := remove_balls s.balls balls_to_remove }

/-- Embedding of `GameLogic.is_in_delete_zone`. -/
def GameLogic.is_in_delete_zone (s : GameLogic) (x y : ℚ) : Bool :=
  decide (s.delete_zone_x ≤ x ∧ x ≤ s.screen_width ∧
    0 ≤ y ∧ y ≤ s.delete_zone_size)

/-- Embedding of `GameLogic.start_suction`. -/
def GameLogic.start_suction (s : GameLogic) (mouse_x mouse_y : ℚ) : GameLogic :=
  { s with suction_active := true, suction_mouse_pos := (mouse_x, mouse_y) }

/-- Embedding of `GameLogic.stop_suction`. -/
def GameLogic.stop_suction (s : GameLogic) : GameLogic :=
  { s with suction_active := false }

/-- Phase 1 of `GameLogic.update`: advance every ball's kinematics. -/
def GameLogic.move_balls (s : GameLogic) : GameLogic :=
  { s with
    balls := s.balls.map fun b => b.update s.screen_width s.screen_height 0.98 }

/-- Phase 3 of `GameLogic.update`: process suction when it is active. -/
def GameLogic.suction_phase (s : GameLogic) : GameLogic :=
  if s.suction_active then s.process_suction else s

/-- Embedding of `GameLogic.update`: kinematics, collisions, suction (when
active), then the delete-zone check, in that order. -/
def GameLogic.update (s : GameLogic) : GameLogic :=
  s.move_balls.handle_collisions.suction_phase.check_delete_zone

/-- Embedding of `GameLogic.get_ball_at_position`: the first active ball
containing the point, in storage order. -/
def GameLogic.get_ball_at_position (s : GameLogic) (x y : ℚ) : Option Ball :=
  s.balls.find? fun b => b.is_point_inside x y

/-- Embedding of `GameLogic.get_delete_zone_bounds`:
`(x, y, width, height)` of the delete zone. -/
def GameLogic.get_delete_zone_bounds (s : GameLogic) : ℚ × ℚ × ℚ × ℚ :=
  (s.delete_zone_x, s.delete_zone_y, s.delete_zone_size, s.delete_zone_size)

/-- Colour mixing as the specification words it, for comparison with the
code's `mixed_color`: each channel is `floor(c1*0.6 + c2*0.4) mod 255`; if
the mean of the three mixed channels exceeds 200, the strictly dominant
channel (r checked first, then g; every other case falls through to
darkening r and g) keeps its value while the other two become
`max(50, value - 50)`. -/
def spec_mixed_color (c1 c2 : ℤ × ℤ × ℤ) : ℤ × ℤ × ℤ :=
  let r := ⌊(c1.1 : ℚ) * 0.6 + (c2.1 : ℚ) * 0.4⌋ % 255
  let g := ⌊(c1.2.1 : ℚ) * 0.6 + (c2.2.1 : ℚ) * 0.4⌋ % 255
  let b := ⌊(c1.2.2 : ℚ) * 0.6 + (c2.2.2 : ℚ) * 0.4⌋ % 255
  if ((r : ℚ) + (g : ℚ) + (b : ℚ)) / 3 > 200 then
    if r > g ∧ r > b then (r, max 50 (g - 50), max 50 (b - 50))
    else if g > r ∧ g > b then (max 50 (r - 50), g, max 50 (b - 50))
    else (max 50 (r - 50), max 50 (g - 50), b)
  else (r, g, b)

/-- The multiset of identity tags of all balls a simulation state tracks,
active and inventoried together. -/
def GameLogic.oids (s : GameLogic) : Multiset ℕ :=
  (↑(s.balls.map Ball.oid) : Multiset ℕ) + (↑(s.inventory.map Ball.oid) : Multiset ℕ)

/-- Well-formedness of a simulation state: no ball is tracked twice (in
particular none sits in both collections), and every identity tag is below
the fresh-tag counter. -/
def GameLogic.wf (s : GameLogic) : Prop :=
  s.oids.Nodup ∧ ∀ i ∈ s.oids, i < s.next_oid

instance (s : GameLogic) : Decidable s.wf := by
  unfold GameLogic.wf
  infer_instance

/-- A ball 50 units to the right of the suction focus used below. -/
def suction_demo_ball : Ball :=
  { oid := 0, x := 150, y := 100, radius := 15, color := (100, 100, 100),
    velocity := (0, 0) }

/-- A state with active suction focused at `(100, 100)` and the single ball
`suction_demo_ball` at distance 50 from the focus. -/
def suction_demo_state : GameLogic :=
  { GameLogic.init 800 600 with
    balls := [suction_demo_ball]
    suction_active := true
    suction_mouse_pos := (100, 100)
    next_oid := 1 }

/-- A ball moving left at speed 2 that crosses the left bound this frame. -/
def bounce_demo_ball : Ball :=
  { oid := 0, x := 16, y := 300, radius := 15, color := (100, 100, 100),
    velocity := (-2, 0) }

/-- A near-white ball for the colour-darkening example. -/
def white_demo_ball1 : Ball :=
  { oid := 0, x := 100, y := 100, radius := 15, color := (250, 250, 250),
    velocity := (0, 0) }

/-- A second near-white ball for the colour-darkening example. -/
def white_demo_ball2 : Ball :=
  { oid := 1, x := 110, y := 100, radius := 15, color := (250, 250, 250),
    velocity := (0, 0) }

/-- A radius-15 ball that does not fit a width-20 frame. -/
def oversized_demo_ball : Ball :=
  { oid := 0, x := 10, y := 300, radius := 15, color := (0, 0, 0),
    velocity := (0, 0) }

/-- First inventory ball of the ejection example. -/
def inventory_demo_ballA : Ball :=
  { oid := 0, x := 30, y := 40, radius := 15, color := (10, 20, 30),
    velocity := (1, 0) }

/-- Second (most recently added) inventory ball of the ejection example. -/
def inventory_demo_ballB : Ball :=
  { oid := 1, x := 60, y := 80, radius := 15, color := (40, 50, 60),
    velocity := (0, 1) }

/-- A state whose inventory holds two balls (A then B) and no active ball. -/
def inventory_demo_state : GameLogic :=
  { GameLogic.init 800 600 with
    inventory := [inventory_demo_ballA, inventory_demo_ballB]
    next_oid := 2 }

/-- A ball resting inside the delete zone of an 800×600 frame. -/
def zone_demo_ball : Ball :=
  { oid := 0, x := 750, y := 50, radius := 15, color := (10, 20, 30),
    velocity := (0, 0) }

/-- A state with a single active ball inside the delete zone. -/
def zone_demo_state : GameLogic :=
  { GameLogic.init 800 600 with
    balls := [zone_demo_ball]
    next_oid := 1 }

/-! Helper lemmas. -/

/-- Floor of the Python modulo agrees with integer modulo. -/
lemma floor_pymod_255 (q : ℚ) : ⌊pymod q 255⌋ = ⌊q⌋ % 255 := by
  unfold pymod
  have h1 : (255 : ℚ) * (⌊q / 255⌋ : ℚ) = (((255 * ⌊q / 255⌋ : ℤ) : ℚ)) := by
    push_cast
    ring
  rw [h1, Int.floor_sub_int]
  have hk1 : (255 : ℤ) * ⌊q / 255⌋ ≤ ⌊q⌋ := by
    rw [Int.le_floor]
    push_cast
    have h := Int.floor_le (q / 255)
    have h255 : (0 : ℚ) < 255 := by norm_num
    rw [le_div_iff₀ h255] at h
    linarith
  have hk2 : ⌊q⌋ < 255 * ⌊q / 255⌋ + 255 := by
    rw [Int.floor_lt]
    push_cast
    have h := Int.lt_floor_add_one (q / 255)
    have h255 : (0 : ℚ) < 255 := by norm_num
    rw [div_lt_iff₀ h255] at h
    linarith
  omega

/-- The pre-darken mixed channel lies in `[0, 254]`. -/
lemma mix_channel_bounds (c1 c2 : ℤ) :
    0 ≤ mix_channel c1 c2 ∧ mix_channel c1 c2 ≤ 254 := by
  unfold mix_channel
  rw [floor_pymod_255]
  refine ⟨Int.emod_nonneg _ (by norm_num), ?_⟩
  have h := Int.emod_lt_of_pos ⌊(c1 : ℚ) * 0.6 + (c2 : ℚ) * 0.4⌋ (show (0:ℤ) < 255 by norm_num)
  omega

/-- Setting an index to the value it already holds leaves a list unchanged. -/
lemma list_set_self {α : Type} (l : List α) (i : ℕ) (a : α) (h : l[i]? = some a) :
    l.set i a = l := by
  induction l generalizing i with
  | nil => simp at h
  | cons x t ih =>
    cases i with
    | zero =>
      simp only [List.getElem?_cons_zero, Option.some.injEq] at h
      simp [h]
    | succ n =>
      simp only [List.getElem?_cons_succ] at h
      simp [ih n h]

/-- The kinematics step keeps the identity tag. -/
lemma Ball.update_oid (b : Ball) (w h f : ℚ) : (b.update w h f).oid = b.oid := rfl

/-- The suction impulse keeps the identity tag. -/
lemma suction_pull_oid (s : GameLogic) (b : Ball) :
    (s.suction_pull b).oid = b.oid := by
  simp only [GameLogic.suction_pull]
  split <;> rfl

/-- Overwriting an entry with one carrying the same identity tag does not
change the identity tags of the list. -/
lemma map_oid_set (bs : List Ball) (i : ℕ) (b b' : Ball) (h : bs[i]? = some b)
    (ho : b'.oid = b.oid) : (bs.set i b').map Ball.oid = bs.map Ball.oid := by
  rw [List.map_set, ho]
  exact list_set_self _ i _ (by rw [List.getElem?_map, h]; rfl)

/-- One collision step does not change the identity tags of the list. -/
lemma collide_step_map_oid (bs : List Ball) (i j : ℕ) :
    (collide_step bs i j).map Ball.oid = bs.map Ball.oid := by
  unfold collide_step
  cases h1 : bs[i]? with
  | none => rfl
  | some b1 =>
    cases h2 : bs[j]? with
    | none => rfl
    | some b2 =>
      by_cases hc : b1.is_colliding b2
      · simp only [hc, if_true]
        have hlen : i < bs.length := by
          by_contra hge
          rw [List.getElem?_eq_none (by omega)] at h1
          exact Option.noConfusion h1
        by_cases hij : i = j
        · subst hij
          have hb12 : b1 = b2 := by
            rw [h1] at h2
            exact Option.some.injEq _ _ |>.mp h2
          subst hb12
          rw [map_oid_set (bs.set i { b1 with color := mixed_color b1.color b1.color })
              i { b1 with color := mixed_color b1.color b1.color }
              { b1 with color := mixed_color b1.color b1.color }
              (List.getElem?_set_self hlen) rfl,
            map_oid_set bs i b1 { b1 with color := mixed_color b1.color b1.color } h1 rfl]
        · rw [map_oid_set (bs.set i { b1 with color := mixed_color b1.color b2.color })
              j b2 { b2 with color := mixed_color b1.color b2.color }
              (by rw [List.getElem?_set_ne hij]; exact h2) rfl,
            map_oid_set bs i b1 { b1 with color := mixed_color b1.color b2.color } h1 rfl]
      · simp [hc]

/-- Unfolding of the removal pass on a marked head. -/
lemma remove_balls_cons (l : List Ball) (b : Ball) (rm : List Ball) :
    remove_balls l (b :: rm) = remove_balls (l.eraseP (fun c => c.oid == b.oid)) rm := rfl

/-- A ball whose tag is hit by no marked ball survives the removal pass. -/
lemma remove_balls_skip (rm : List Ball) (t : List Ball) (b : Ball)
    (h : ∀ a ∈ rm, b.oid ≠ a.oid) :
    remove_balls (b :: t) rm = b :: remove_balls t rm := by
  induction rm generalizing t with
  | nil => rfl
  | cons a rm ih =>
    rw [remove_balls_cons, remove_balls_cons, List.eraseP_cons]
    have hba : (b.oid == a.oid) = false := by
      simp only [beq_eq_false_iff_ne, ne_eq]
      exact h a (List.mem_cons_self a rm)
    rw [hba]
    simp only [cond_false]
    exact ih _ (fun x hx => h x (List.mem_cons_of_mem a hx))

/-- On a list with distinct identity tags, the two-pass mark-then-remove
pattern of the source is the filter by the negated mark predicate. -/
lemma remove_balls_filter (l : List Ball) (p : Ball → Bool)
    (h : (l.map Ball.oid).Nodup) :
    remove_balls l (l.filter p) = l.filter (fun b => !(p b)) := by
  induction l with
  | nil => rfl
  | cons b t ih =>
    simp only [List.map_cons, List.nodup_cons] at h
    obtain ⟨hb, ht⟩ := h
    have hne : ∀ a ∈ t.filter p, b.oid ≠ a.oid := by
      intro a ha hcontra
      exact hb (hcontra ▸ List.mem_map_of_mem Ball.oid (List.mem_of_mem_filter ha))
    cases hp : p b with
    | true =>
      rw [List.filter_cons_of_pos hp, remove_balls_cons, List.eraseP_cons]
      rw [show (b.oid == b.oid) = true from beq_self_eq_true _]
      simp only [cond_true]
      rw [ih ht, List.filter_cons_of_neg (by simp [hp])]
    | false =>
      rw [List.filter_cons_of_neg (by simp [hp]), remove_balls_skip _ _ _ hne,
        ih ht, List.filter_cons_of_pos (by simp [hp])]

/-- Advancing kinematics does not change the identity tags. -/
lemma move_balls_map_oid (s : GameLogic) :
    s.move_balls.balls.map Ball.oid = s.balls.map Ball.oid := by
  simp [GameLogic.move_balls, List.map_map, Function.comp, Ball.update_oid]

/-- The collision fold does not change the identity tags. -/
lemma foldl_collide_map_oid (ps : List (ℕ × ℕ)) (bs : List Ball) :
    (ps.foldl (fun l p => collide_step l p.1 p.2) bs).map Ball.oid = bs.map Ball.oid := by
  induction ps generalizing bs with
  | nil => rfl
  | cons p ps ih => rw [List.foldl_cons, ih, collide_step_map_oid]

/-- Collision resolution does not change the identity tags. -/
lemma handle_collisions_map_oid (s : GameLogic) :
    s.handle_collisions.balls.map Ball.oid = s.balls.map Ball.oid :=
  foldl_collide_map_oid _ _

/-- The suction impulse pass does not change the identity tags. -/
lemma pulled_map_oid (s : GameLogic) :
    (s.balls.map s.suction_pull).map Ball.oid = s.balls.map Ball.oid := by
  simp [List.map_map, Function.comp, suction_pull_oid]

/-- A suction transfer preserves the combined multiset of identity tags. -/
lemma process_suction_oids (s : GameLogic) (h : (s.balls.map Ball.oid).Nodup) :
    s.process_suction.oids = s.oids := by
  have hp : ((s.balls.map s.suction_pull).map Ball.oid).Nodup := by
    rw [pulled_map_oid]
    exact h
  unfold GameLogic.process_suction GameLogic.oids
  simp only []
  rw [remove_balls_filter _ _ hp, List.map_append, ← Multiset.coe_add]
  have hfp := List.filter_append_perm (fun b => !(s.suction_captured b))
    (s.balls.map s.suction_pull)
  simp only [Bool.not_not] at hfp
  have key : (↑(((s.balls.map s.suction_pull).filter (fun b => !(s.suction_captured b))).map Ball.oid) : Multiset ℕ) +
      ↑(((s.balls.map s.suction_pull).filter s.suction_captured).map Ball.oid) =
      (↑(s.balls.map Ball.oid) : Multiset ℕ) := by
    rw [Multiset.coe_add, Multiset.coe_eq_coe, ← List.map_append]
    have hm := hfp.map Ball.oid
    rw [pulled_map_oid] at hm
    exact hm
  rw [add_comm (↑(s.inventory.map Ball.oid) : Multiset ℕ) _, ← add_assoc, key]

/-- The tag multiset of a state as one concatenated list. -/
lemma oids_coe (s : GameLogic) :
    s.oids = ↑(s.balls.map Ball.oid ++ s.inventory.map Ball.oid) := by
  unfold GameLogic.oids
  rw [Multiset.coe_add]

/-- A well-formed state has distinct tags among its active balls. -/
lemma balls_nodup_of_wf (s : GameLogic) (h : s.wf) :
    (s.balls.map Ball.oid).Nodup := by
  have h1 := h.1
  rw [oids_coe, Multiset.coe_nodup] at h1
  exact h1.of_append_left

/-- The kinematics phase preserves the tag multiset. -/
lemma move_balls_oids (s : GameLogic) : s.move_balls.oids = s.oids := by
  unfold GameLogic.oids
  rw [move_balls_map_oid]
  rfl

/-- The collision phase preserves the tag multiset. -/
lemma handle_collisions_oids (s : GameLogic) :
    s.handle_collisions.oids = s.oids := by
  unfold GameLogic.oids
  rw [handle_collisions_map_oid]
  rfl

/-- The suction phase preserves the tag multiset. -/
lemma suction_phase_oids (s : GameLogic) (h : (s.balls.map Ball.oid).Nodup) :
    s.suction_phase.oids = s.oids := by
  unfold GameLogic.suction_phase
  split
  · exact process_suction_oids s h
  · rfl

/-- The delete-zone pass removes exactly the marked balls and leaves the
inventory alone. -/
lemma check_delete_zone_split (s : GameLogic) (h : (s.balls.map Ball.oid).Nodup) :
    s.check_delete_zone.balls = s.balls.filter (fun b => !(s.in_delete_zone_check b)) ∧
    s.check_delete_zone.inventory = s.inventory :=
  ⟨remove_balls_filter _ _ h, rfl⟩

/-- The delete-zone pass removes exactly the tags of the in-zone balls. -/
lemma check_delete_zone_oids (s : GameLogic) (h : (s.balls.map Ball.oid).Nodup) :
    s.check_delete_zone.oids + ↑((s.balls.filter s.in_delete_zone_check).map Ball.oid) =
      s.oids := by
  unfold GameLogic.oids
  rw [(check_delete_zone_split s h).1, (check_delete_zone_split s h).2]
  have hfp := List.filter_append_perm (fun b => !(s.in_delete_zone_check b)) s.balls
  simp only [Bool.not_not] at hfp
  have key : (↑((s.balls.filter (fun b => !(s.in_delete_zone_check b))).map Ball.oid) : Multiset ℕ) +
      ↑((s.balls.filter s.in_delete_zone_check).map Ball.oid) =
      (↑(s.balls.map Ball.oid) : Multiset ℕ) := by
    rw [Multiset.coe_add, Multiset.coe_eq_coe, ← List.map_append]
    exact hfp.map Ball.oid
  rw [add_right_comm, key]

/-- The suction phase leaves the free-tag counter unchanged. -/
lemma suction_phase_next_oid (s : GameLogic) :
    s.suction_phase.next_oid = s.next_oid := by
  unfold GameLogic.suction_phase
  split <;> rfl

/-- A full frame leaves the free-tag counter unchanged. -/
lemma update_next_oid (s : GameLogic) : s.update.next_oid = s.next_oid := by
  show s.move_balls.handle_collisions.suction_phase.check_delete_zone.next_oid = s.next_oid
  have h1 : s.move_balls.handle_collisions.suction_phase.check_delete_zone.next_oid =
      s.move_balls.handle_collisions.suction_phase.next_oid := rfl
  rw [h1, suction_phase_next_oid]
  rfl

/-- The suction phase leaves the geometry fields unchanged. -/
lemma suction_phase_fields (s : GameLogic) :
    s.suction_phase.screen_width = s.screen_width ∧
    s.suction_phase.delete_zone_x = s.delete_zone_x ∧
    s.suction_phase.delete_zone_size = s.delete_zone_size := by
  unfold GameLogic.suction_phase
  split <;> exact ⟨rfl, rfl, rfl⟩

/-- The square root of 2500 evaluated exactly. -/
lemma rat_sqrt_2500 : Rat.sqrt 2500 = 50 := by
  rw [show (2500 : ℚ) = 50 * 50 by norm_num, Rat.sqrt_eq]
  norm_num

/-- A state with a duplicate-free tag multiset has duplicate-free active
tags. -/
lemma balls_nodup_of_oids (s : GameLogic) (h : s.oids.Nodup) :
    (s.balls.map Ball.oid).Nodup := by
  rw [oids_coe, Multiset.coe_nodup] at h
  exact h.of_append_left

/-- Ejecting from an empty inventory does nothing and returns nothing. -/
lemma eject_ball_nil (s : GameLogic) (mx my : ℚ) (v : Option (ℚ × ℚ))
    (smp : ℚ × ℚ) (h : s.inventory = []) : s.eject_ball mx my v smp = (s, none) := by
  unfold GameLogic.eject_ball
  rw [h]
  rfl

/-- Ejecting from a nonempty inventory pops the last (most recently added)
ball, repositions it, sets its velocity, and appends it to the active list. -/
lemma eject_ball_eq (s : GameLogic) (mx my : ℚ) (v : Option (ℚ × ℚ))
    (smp : ℚ × ℚ) (rest : List Ball) (b : Ball) (hrb : s.inventory = rest ++ [b]) :
    s.eject_ball mx my v smp =
      ({ s with
          inventory := rest
          balls := s.balls ++
            [{ b with
                x := mx
                y := my
                velocity := (match v with | some u => u | none => smp) }] },
        some { b with
              x := mx
              y := my
              velocity := (match v with | some u => u | none => smp) }) := by
  unfold GameLogic.eject_ball
  rw [hrb, List.getLast?_concat, List.dropLast_concat]

/-- The geometry fields survive the three pre-delete phases of a frame. -/
lemma s3_fields (s : GameLogic) :
    s.move_balls.handle_collisions.suction_phase.screen_width = s.screen_width ∧
    s.move_balls.handle_collisions.suction_phase.delete_zone_x = s.delete_zone_x ∧
    s.move_balls.handle_collisions.suction_phase.delete_zone_size = s.delete_zone_size := by
  obtain ⟨h1, h2, h3⟩ := suction_phase_fields (s.move_balls.handle_collisions)
  exact ⟨h1, h2, h3⟩

/-- The active tags are still duplicate-free after the two kinematic
phases. -/
lemma s2_balls_nodup (s : GameLogic) (h : (s.balls.map Ball.oid).Nodup) :
    (s.move_balls.handle_collisions.balls.map Ball.oid).Nodup := by
  rw [handle_collisions_map_oid, move_balls_map_oid]
  exact h

/-- The three pre-delete phases preserve the tag multiset. -/
lemma s3_oids (s : GameLogic) (h : (s.balls.map Ball.oid).Nodup) :
    s.move_balls.handle_collisions.suction_phase.oids = s.oids := by
  rw [suction_phase_oids _ (s2_balls_nodup s h), handle_collisions_oids, move_balls_oids]

/-- The active tags are still duplicate-free when the delete-zone phase
runs. -/
lemma s3_balls_nodup (s : GameLogic) (h : s.wf) :
    (s.move_balls.handle_collisions.suction_phase.balls.map Ball.oid).Nodup := by
  apply balls_nodup_of_oids
  rw [s3_oids s (balls_nodup_of_wf s h)]
  exact h.1

/-- Bounds of the three channels of the mixed colour. -/
lemma mixed_color_bounds (c1 c2 : ℤ × ℤ × ℤ) :
    (0 ≤ (mixed_color c1 c2).1 ∧ (mixed_color c1 c2).1 ≤ 254) ∧
    (0 ≤ (mixed_color c1 c2).2.1 ∧ (mixed_color c1 c2).2.1 ≤ 254) ∧
    (0 ≤ (mixed_color c1 c2).2.2 ∧ (mixed_color c1 c2).2.2 ≤ 254) := by
  obtain ⟨hr0, hr1⟩ := mix_channel_bounds c1.1 c2.1
  obtain ⟨hg0, hg1⟩ := mix_channel_bounds c1.2.1 c2.2.1
  obtain ⟨hb0, hb1⟩ := mix_channel_bounds c1.2.2 c2.2.2
  unfold mixed_color
  dsimp only
  split_ifs <;> refine ⟨⟨?_, ?_⟩, ⟨?_, ?_⟩, ⟨?_, ?_⟩⟩ <;> simp <;> omega

/-- One pre-darken channel written as the specification words it. -/
lemma mix_channel_eq_spec (c1 c2 : ℤ) :
    mix_channel c1 c2 = ⌊(c1 : ℚ) * 0.6 + (c2 : ℚ) * 0.4⌋ % 255 :=
  floor_pymod_255 _

/-- The code's mixed colour equals the specification's formula. -/
lemma mixed_color_eq_spec (c1 c2 : ℤ × ℤ × ℤ) :
    mixed_color c1 c2 = spec_mixed_color c1 c2 := by
  unfold mixed_color spec_mixed_color
  simp only [mix_channel_eq_spec]

/-- Claim C2 (counterexample): a ball entering `advance` with `vx = -2` and
crossing the left bound does not leave with `vx = 1.6`: friction acts before
the bounce, so the reflected speed is `2 * 0.98 * 0.8 = 1.568`. -/
theorem bounce_velocity_not_two_times_point_eight :
    (bounce_demo_ball.update 800 600 0.98).x = 15 ∧
    (bounce_demo_ball.update 800 600 0.98).velocity.1 = 196/125 ∧
    ((196 : ℚ)/125) ≠ 8/5 := by
  refine ⟨?_, ?_, by norm_num⟩ <;>
    norm_num [bounce_demo_ball, Ball.update, abs_of_nonneg]

/-- Claim C2 (amended): a ball entering `advance` with `vx = -2` whose
frictioned motion crosses the left bound `x = 0` ends with `x = radius` and
`vx = 2 * 0.98 * 0.8 = 1.568 = 196/125`, whatever happens on the y axis. -/
theorem bounce_left_wall_friction_then_reflect (b : Ball) (W H : ℚ)
    (h1 : b.velocity.1 = -2) (h2 : b.x + (-2 : ℚ) * 0.98 - b.radius < 0) :
    (b.update W H 0.98).x = b.radius ∧
    (b.update W H 0.98).velocity.1 = 196/125 := by
  simp only [Ball.update, h1]
  rw [if_pos h2]
  constructor
  · rfl
  · show |(-2 : ℚ) * 0.98| * 0.8 = 196 / 125
    rw [abs_of_nonpos (by norm_num)]
    norm_num

/-- Witness for the amended claim C2 at a concrete ball. -/
theorem bounce_left_wall_friction_then_reflect_witness :
    bounce_demo_ball.velocity.1 = -2 ∧
    bounce_demo_ball.x + (-2 : ℚ) * 0.98 - bounce_demo_ball.radius < 0 ∧
    ((bounce_demo_ball.update 800 600 0.98).x = bounce_demo_ball.radius ∧
      (bounce_demo_ball.update 800 600 0.98).velocity.1 = 196/125) :=
  ⟨by norm_num [bounce_demo_ball], by norm_num [bounce_demo_ball],
    bounce_left_wall_friction_then_reflect bounce_demo_ball 800 600
      (by norm_num [bounce_demo_ball]) (by norm_num [bounce_demo_ball])⟩

/-- Claim C3 (counterexample): mixing `(250,250,250)` with itself does not
yield `(200,200,200)`: the fallback branch leaves the blue channel alone, so
the result is `(200,200,250)`. -/
theorem near_white_mix_result_not_200_200_200 :
    (GameLogic.mix_colors white_demo_ball1 white_demo_ball2).1.color = (200, 200, 250) ∧
    (GameLogic.mix_colors white_demo_ball1 white_demo_ball2).2.color = (200, 200, 250) ∧
    ((200, 200, 250) : ℤ × ℤ × ℤ) ≠ (200, 200, 200) := by
  refine ⟨?_, ?_, by decide⟩ <;>
    norm_num [GameLogic.mix_colors, mixed_color, mix_channel, pymod,
      white_demo_ball1, white_demo_ball2]

/-- Claim C3 (amended): mixing `(250,250,250)` with `(250,250,250)` gives the
pre-darken mix `(250,250,250)`, brightness `250 > 200`, no strictly dominant
channel, so the fallback darkens r and g by 50 and leaves b unchanged; both
balls receive `(200,200,250)`. -/
theorem near_white_mix_darkens_r_g_only :
    mix_channel 250 250 = 250 ∧
    (GameLogic.mix_colors white_demo_ball1 white_demo_ball2).1.color = (200, 200, 250) ∧
    (GameLogic.mix_colors white_demo_ball1 white_demo_ball2).2.color = (200, 200, 250) := by
  refine ⟨?_, ?_, ?_⟩ <;>
    norm_num [GameLogic.mix_colors, mixed_color, mix_channel, pymod,
      white_demo_ball1, white_demo_ball2]

/-- Claim C8 (counterexample): a radius-15 ball in a width-20 frame is
clamped to `x = radius = 15`, which is outside `[radius, bound - radius] =
[15, 5]`: the claimed containment fails when the ball does not fit. -/
theorem advance_escapes_small_frame :
    (oversized_demo_ball.update 20 600 0.98).radius = oversized_demo_ball.radius ∧
    (oversized_demo_ball.update 20 600 0.98).x = 15 ∧
    ¬ ((oversized_demo_ball.update 20 600 0.98).x ≤
        20 - oversized_demo_ball.radius) := by
  refine ⟨rfl, ?_, ?_⟩ <;>
    norm_num [oversized_demo_ball, Ball.update, abs_of_nonneg]

/-- Claim C8 (amended): for every ball whose diameter fits the frame
(`2 * radius ≤ bound` on each axis), `advance` keeps the radius and leaves
each coordinate within `[radius, bound - radius]`. -/
theorem advance_stays_within_fitting_bounds (b : Ball) (W H f : ℚ)
    (hW : 2 * b.radius ≤ W) (hH : 2 * b.radius ≤ H) :
    (b.update W H f).radius = b.radius ∧
    (b.radius ≤ (b.update W H f).x ∧ (b.update W H f).x ≤ W - b.radius) ∧
    (b.radius ≤ (b.update W H f).y ∧ (b.update W H f).y ≤ H - b.radius) := by
  refine ⟨rfl, ?_, ?_⟩ <;>
  · simp only [Ball.update]
    split_ifs <;> constructor <;> simp <;> linarith

/-- Witness for the amended claim C8 at a concrete ball. -/
theorem advance_stays_within_fitting_bounds_witness :
    2 * bounce_demo_ball.radius ≤ (800 : ℚ) ∧
    2 * bounce_demo_ball.radius ≤ (600 : ℚ) ∧
    ((bounce_demo_ball.update 800 600 0.98).radius = bounce_demo_ball.radius ∧
      (bounce_demo_ball.radius ≤ (bounce_demo_ball.update 800 600 0.98).x ∧
        (bounce_demo_ball.update 800 600 0.98).x ≤ 800 - bounce_demo_ball.radius) ∧
      (bounce_demo_ball.radius ≤ (bounce_demo_ball.update 800 600 0.98).y ∧
        (bounce_demo_ball.update 800 600 0.98).y ≤ 600 - bounce_demo_ball.radius)) :=
  ⟨by norm_num [bounce_demo_ball], by norm_num [bounce_demo_ball],
    advance_stays_within_fitting_bounds bounce_demo_ball 800 600 0.98
      (by norm_num [bounce_demo_ball]) (by norm_num [bounce_demo_ball])⟩

/-- Claim C9: after colour mixing, every channel of both balls' colours is an
integer in `[0, 254]`; in particular the value 255 (pure white) is never
produced. -/
theorem mix_colors_channels_in_range (b1 b2 : Ball) :
    (0 ≤ (GameLogic.mix_colors b1 b2).1.color.1 ∧ (GameLogic.mix_colors b1 b2).1.color.1 ≤ 254) ∧
    (0 ≤ (GameLogic.mix_colors b1 b2).1.color.2.1 ∧ (GameLogic.mix_colors b1 b2).1.color.2.1 ≤ 254) ∧
    (0 ≤ (GameLogic.mix_colors b1 b2).1.color.2.2 ∧ (GameLogic.mix_colors b1 b2).1.color.2.2 ≤ 254) ∧
    (0 ≤ (GameLogic.mix_colors b1 b2).2.color.1 ∧ (GameLogic.mix_colors b1 b2).2.color.1 ≤ 254) ∧
    (0 ≤ (GameLogic.mix_colors b1 b2).2.color.2.1 ∧ (GameLogic.mix_colors b1 b2).2.color.2.1 ≤ 254) ∧
    (0 ≤ (GameLogic.mix_colors b1 b2).2.color.2.2 ∧ (GameLogic.mix_colors b1 b2).2.color.2.2 ≤ 254) := by
  obtain ⟨h1, h2, h3⟩ := mixed_color_bounds b1.color b2.color
  exact ⟨h1, h2, h3, h1, h2, h3⟩

/-- Claim C4: the mixing operation computes each pre-darken channel as
`floor(c1*0.6 + c2*0.4) mod 255`, applies the strict r-then-g dominance
darkening exactly when the mean of the channels exceeds 200 (everything else
falls through to darkening r and g), and writes the same result to both
balls. -/
theorem mix_colors_matches_spec (b1 b2 : Ball) :
    (GameLogic.mix_colors b1 b2).1 = { b1 with color := spec_mixed_color b1.color b2.color } ∧
    (GameLogic.mix_colors b1 b2).2 = { b2 with color := spec_mixed_color b1.color b2.color } ∧
    (GameLogic.mix_colors b1 b2).1.color = (GameLogic.mix_colors b1 b2).2.color := by
  unfold GameLogic.mix_colors
  rw [mixed_color_eq_spec]
  exact ⟨rfl, rfl, rfl⟩

/-- Claim C7: `eject_ball` returns the null result exactly when the
inventory is empty (and then has no side effect); otherwise it pops the most
recently added inventory ball (LIFO), repositions it at the given point,
sets its velocity to the given vector when supplied, appends it to the end
of the active list, and returns it. -/
theorem eject_ball_lifo_contract (s : GameLogic) (mx my : ℚ)
    (v : Option (ℚ × ℚ)) (smp : ℚ × ℚ) :
    ((s.eject_ball mx my v smp).2 = none ↔ s.inventory = []) ∧
    (s.inventory = [] → s.eject_ball mx my v smp = (s, none)) ∧
    (∀ rest b, s.inventory = rest ++ [b] →
      s.eject_ball mx my v smp =
        ({ s with
            inventory := rest
            balls := s.balls ++
              [{ b with
                  x := mx
                  y := my
                  velocity := (match v with | some u => u | none => smp) }] },
          some { b with
                x := mx
                y := my
                velocity := (match v with | some u => u | none => smp) })) := by
  refine ⟨⟨?_, ?_⟩, fun h => eject_ball_nil s mx my v smp h,
    fun rest b hrb => eject_ball_eq s mx my v smp rest b hrb⟩
  · intro h
    rcases List.eq_nil_or_concat s.inventory with hnil | ⟨rest, b, hrb⟩
    · exact hnil
    · rw [List.concat_eq_append] at hrb
      rw [eject_ball_eq s mx my v smp rest b hrb] at h
      exact Option.noConfusion h
  · intro h
    rw [eject_ball_nil s mx my v smp h]

/-- Witness for claim C7: ejecting from an inventory holding A then B
returns B, repositioned, with the supplied velocity, appended to the active
list, and leaves A in the inventory. -/
theorem eject_ball_lifo_contract_witness :
    inventory_demo_state.eject_ball 5 6 (some (1, 2)) (0, 0) =
      ({ inventory_demo_state with
          inventory := [inventory_demo_ballA]
          balls := inventory_demo_state.balls ++
            [{ inventory_demo_ballB with x := 5, y := 6, velocity := (1, 2) }] },
        some { inventory_demo_ballB with x := 5, y := 6, velocity := (1, 2) }) :=
  (eject_ball_lifo_contract inventory_demo_state 5 6 (some (1, 2)) (0, 0)).2.2
    [inventory_demo_ballA] inventory_demo_ballB rfl

/-- Claim C10: `is_in_delete_zone` tests exactly the inclusive rectangle
`x ∈ [width - 100, width] × y ∈ [0, 100]` for an initial state; the same
rectangle is the one described by `get_delete_zone_bounds`; and the
delete-zone phase removes exactly the active balls whose centre satisfies
`is_in_delete_zone`, never touching the inventory. -/
theorem delete_zone_definitions_agree (W H x y : ℚ) (s : GameLogic)
    (h : (s.balls.map Ball.oid).Nodup) :
    ((GameLogic.init W H).is_in_delete_zone x y = true ↔
      (W - 100 ≤ x ∧ x ≤ W ∧ 0 ≤ y ∧ y ≤ 100)) ∧
    ((GameLogic.init W H).is_in_delete_zone x y = true ↔
      ((GameLogic.init W H).get_delete_zone_bounds.1 ≤ x ∧
        x ≤ (GameLogic.init W H).get_delete_zone_bounds.1 +
          (GameLogic.init W H).get_delete_zone_bounds.2.2.1 ∧
        (GameLogic.init W H).get_delete_zone_bounds.2.1 ≤ y ∧
        y ≤ (GameLogic.init W H).get_delete_zone_bounds.2.1 +
          (GameLogic.init W H).get_delete_zone_bounds.2.2.2)) ∧
    s.check_delete_zone.balls =
      s.balls.filter (fun b => !(s.is_in_delete_zone b.x b.y)) ∧
    s.check_delete_zone.inventory = s.inventory := by
  refine ⟨?_, ?_, ?_, rfl⟩
  · simp [GameLogic.is_in_delete_zone, GameLogic.init]
  · have hW : W - 100 + 100 = W := by ring
    simp [GameLogic.is_in_delete_zone, GameLogic.init,
      GameLogic.get_delete_zone_bounds, hW]
  · exact (check_delete_zone_split s h).1

/-- Witness for claim C10 at a concrete one-ball state. -/
theorem delete_zone_definitions_agree_witness :
    zone_demo_state.check_delete_zone.balls =
      zone_demo_state.balls.filter
        (fun b => !(zone_demo_state.is_in_delete_zone b.x b.y)) :=
  (delete_zone_definitions_agree 800 600 750 50 zone_demo_state (by decide)).2.2.1

/-- Claim C1 (code bug): during the suction phase, a ball at distance 50 to
the right of the focus receives the velocity impulse `(+3/4, 0)`, i.e. of
magnitude `2.5 * 0.3 = 0.75` but directed AWAY from the focus, because the
code normalises `(ball - focus)` instead of `(focus - ball)`; the claimed
impulse along the unit vector toward the focus would be `(-3/4, 0)`
(second and third conjuncts). -/
theorem suction_impulse_points_away_from_focus :
    suction_demo_state.process_suction.balls.map Ball.velocity = [((3 : ℚ)/4, 0)] ∧
    suction_demo_state.process_suction.inventory = [] ∧
    ((0 : ℚ) + ((100 - 150) / 50) * min (((100 - (50 : ℚ)) / 100) * 5) 10 * 0.3, (0 : ℚ)) =
      (-(3 : ℚ)/4, (0 : ℚ)) ∧
    ((3 : ℚ)/4, (0 : ℚ)) ≠ (-(3 : ℚ)/4, (0 : ℚ)) := by
  refine ⟨?_, ?_, ?_, ?_⟩
  · norm_num [GameLogic.process_suction, GameLogic.suction_pull, GameLogic.suction_distance,
      GameLogic.suction_captured, remove_balls, suction_demo_state, suction_demo_ball,
      GameLogic.init, rat_sqrt_2500, min_def]
  · norm_num [GameLogic.process_suction, GameLogic.suction_pull, GameLogic.suction_distance,
      GameLogic.suction_captured, remove_balls, suction_demo_state, suction_demo_ball,
      GameLogic.init, rat_sqrt_2500, min_def]
  · norm_num [min_def]
  · norm_num

/-- Tag multiset of the post-ejection state. -/
lemma eject_state_oids (s : GameLogic) (rest : List Ball) (b b' : Ball)
    (hrb : s.inventory = rest ++ [b]) (hob : b'.oid = b.oid) :
    ({ s with inventory := rest, balls := s.balls ++ [b'] } : GameLogic).oids = s.oids := by
  unfold GameLogic.oids
  simp only []
  rw [hrb, List.map_append, List.map_append, ← Multiset.coe_add, ← Multiset.coe_add]
  rw [show ([b'].map Ball.oid) = [b.oid] by simp [hob],
    show ([b].map Ball.oid) = [b.oid] by simp]
  rw [add_assoc, add_comm (↑([b.oid]) : Multiset ℕ) (↑(rest.map Ball.oid) : Multiset ℕ)]

/-- Claim C5 (counterexample): a successful `eject_ball` does not increase
`size(active_balls) + size(inventory)`: it moves a ball from the inventory
to the active list, so the sum stays 2 here instead of becoming 3. -/
theorem eject_does_not_increase_total_count :
    (inventory_demo_state.eject_ball 10 10 (some (1, 0)) (0, 0)).2 ≠ none ∧
    inventory_demo_state.balls.length + inventory_demo_state.inventory.length = 2 ∧
    (inventory_demo_state.eject_ball 10 10 (some (1, 0)) (0, 0)).1.balls.length +
      (inventory_demo_state.eject_ball 10 10 (some (1, 0)) (0, 0)).1.inventory.length = 2 ∧
    (2 : ℕ) ≠ 2 + 1 := by
  have he := eject_ball_eq inventory_demo_state 10 10 (some (1, 0)) (0, 0)
    [inventory_demo_ballA] inventory_demo_ballB rfl
  refine ⟨?_, rfl, ?_, by decide⟩
  · rw [he]
    exact fun hcontra => Option.noConfusion hcontra
  · rw [he]
    simp [inventory_demo_state, GameLogic.init]

/-- Claim C5 (amended): on a well-formed state, every public operation keeps
each tracked ball in exactly one of the two collections (the tag multiset
stays duplicate-free); `add_ball` adds exactly the fresh ball (sum of sizes
+1); the pre-delete phases of `update` preserve the tag multiset (suction
transfers included) and the delete-zone pass removes exactly the in-zone
tags; a successful `eject_ball` permutes the tags (sum of sizes constant,
not +1); `start_suction`/`stop_suction` change nothing. -/
theorem ball_ownership_and_count_invariant (s : GameLogic) (h : s.wf) :
    (∀ x y c v,
      (s.add_ball x y c v).1.wf ∧
      (s.add_ball x y c v).1.oids = s.next_oid ::ₘ s.oids ∧
      (s.add_ball x y c v).1.balls.length + (s.add_ball x y c v).1.inventory.length =
        s.balls.length + s.inventory.length + 1) ∧
    (s.update.wf ∧
      s.move_balls.handle_collisions.suction_phase.oids = s.oids ∧
      s.update.oids +
        ↑((s.move_balls.handle_collisions.suction_phase.balls.filter
          s.move_balls.handle_collisions.suction_phase.in_delete_zone_check).map Ball.oid) =
        s.oids) ∧
    (∀ mx my v smp,
      (s.inventory = [] → s.eject_ball mx my v smp = (s, none)) ∧
      (∀ rest b, s.inventory = rest ++ [b] →
        (s.eject_ball mx my v smp).1.wf ∧
        (s.eject_ball mx my v smp).1.oids = s.oids ∧
        (s.eject_ball mx my v smp).1.balls.length +
          (s.eject_ball mx my v smp).1.inventory.length =
          s.balls.length + s.inventory.length)) ∧
    (∀ mx my, (s.start_suction mx my).oids = s.oids ∧ (s.start_suction mx my).wf) ∧
    (s.stop_suction.oids = s.oids ∧ s.stop_suction.wf) := by
  have hb := balls_nodup_of_wf s h
  refine ⟨?_, ?_, ?_, ?_, ?_⟩
  · intro x y c v
    have hoids : (s.add_ball x y c v).1.oids = s.next_oid ::ₘ s.oids := by
      unfold GameLogic.add_ball GameLogic.oids
      simp only []
      rw [List.map_append, ← Multiset.coe_add]
      show ((↑(s.balls.map Ball.oid) : Multiset ℕ) + ↑([s.next_oid])) +
        ↑(s.inventory.map Ball.oid) = _
      rw [show ((↑([s.next_oid]) : Multiset ℕ)) = {s.next_oid} from rfl]
      rw [add_comm (↑(s.balls.map Ball.oid) : Multiset ℕ) ({s.next_oid} : Multiset ℕ),
        add_assoc, Multiset.singleton_add]
    have hmem : s.next_oid ∉ s.oids := fun hm => lt_irrefl _ (h.2 _ hm)
    refine ⟨⟨?_, ?_⟩, hoids, ?_⟩
    · rw [hoids]
      exact Multiset.nodup_cons.mpr ⟨hmem, h.1⟩
    · intro i hi
      rw [hoids] at hi
      have hnext : (s.add_ball x y c v).1.next_oid = s.next_oid + 1 := rfl
      rw [hnext]
      rcases Multiset.mem_cons.mp hi with h1 | h1
      · omega
      · have := h.2 i h1
        omega
    · show (s.balls ++ _).length + s.inventory.length = _
      simp only [List.length_append, List.length_cons, List.length_nil]
      omega
  · have h3oids := s3_oids s hb
    have h3nodup := s3_balls_nodup s h
    have hdel := check_delete_zone_oids (s.move_balls.handle_collisions.suction_phase) h3nodup
    have hupd : s.update.oids +
        ↑((s.move_balls.handle_collisions.suction_phase.balls.filter
          s.move_balls.handle_collisions.suction_phase.in_delete_zone_check).map Ball.oid) =
        s.oids := by
      show s.move_balls.handle_collisions.suction_phase.check_delete_zone.oids + _ = _
      rw [hdel, h3oids]
    have hle : s.update.oids ≤ s.oids := by
      rw [← hupd]
      exact Multiset.le_add_right _ _
    refine ⟨⟨Multiset.nodup_of_le hle h.1, ?_⟩, h3oids, hupd⟩
    intro i hi
    rw [update_next_oid]
    exact h.2 i (Multiset.mem_of_le hle hi)
  · intro mx my v smp
    refine ⟨fun hempty => eject_ball_nil s mx my v smp hempty, ?_⟩
    intro rest b hrb
    rw [eject_ball_eq s mx my v smp rest b hrb]
    dsimp only
    have hoids := eject_state_oids s rest b
      { b with x := mx, y := my, velocity := (match v with | some u => u | none => smp) }
      hrb rfl
    refine ⟨⟨?_, ?_⟩, hoids, ?_⟩
    · rw [hoids]
      exact h.1
    · intro i hi
      rw [hoids] at hi
      exact h.2 i hi
    · show (s.balls ++ _).length + rest.length = _
      rw [List.length_append, hrb, List.length_append]
      simp only [List.length_cons, List.length_nil]
      omega
  · intro mx my
    exact ⟨rfl, h⟩
  · exact ⟨rfl, h⟩

/-- Witness for the amended claim C5: ejecting from a two-ball inventory
keeps the combined ball count at 2. -/
theorem ball_ownership_and_count_invariant_witness :
    (inventory_demo_state.eject_ball 7 8 none (2, 0)).1.balls.length +
      (inventory_demo_state.eject_ball 7 8 none (2, 0)).1.inventory.length =
      inventory_demo_state.balls.length + inventory_demo_state.inventory.length := by
  have hc := (ball_ownership_and_count_invariant inventory_demo_state (by decide)).2.2.1
  exact ((hc 7 8 none (2, 0)).2 [inventory_demo_ballA] inventory_demo_ballB rfl).2.2

/-- Claim C6: in `update` the delete-zone check runs after the suction
phase: it removes from the active list exactly the balls whose centre lies
in the inclusive delete-zone rectangle at check time, destroys them rather
than moving them to the inventory, and leaves the post-suction inventory
untouched — so a ball transferred to inventory in the same frame is never
deleted. -/
theorem delete_zone_phase_after_suction (s : GameLogic) (h : s.wf) :
    s.update.balls =
      s.move_balls.handle_collisions.suction_phase.balls.filter
        (fun b => !(decide (s.delete_zone_x ≤ b.x ∧ b.x ≤ s.screen_width ∧
          0 ≤ b.y ∧ b.y ≤ s.delete_zone_size))) ∧
    s.update.inventory = s.move_balls.handle_collisions.suction_phase.inventory ∧
    (∀ b, b ∈ s.move_balls.handle_collisions.suction_phase.inventory →
      b ∈ s.update.inventory) := by
  obtain ⟨hw, hx, hsize⟩ := s3_fields s
  have h3 := s3_balls_nodup s h
  have hsplit := check_delete_zone_split (s.move_balls.handle_collisions.suction_phase) h3
  refine ⟨?_, hsplit.2, ?_⟩
  · show s.move_balls.handle_collisions.suction_phase.check_delete_zone.balls = _
    rw [hsplit.1]
    congr 1
    funext b
    unfold GameLogic.in_delete_zone_check
    rw [hw, hx, hsize]
  · intro b hbmem
    show b ∈ s.move_balls.handle_collisions.suction_phase.check_delete_zone.inventory
    rw [hsplit.2]
    exact hbmem

/-- Witness for claim C6 at a concrete one-ball state. -/
theorem delete_zone_phase_after_suction_witness :
    zone_demo_state.update.balls =
      zone_demo_state.move_balls.handle_collisions.suction_phase.balls.filter
        (fun b => !(decide (zone_demo_state.delete_zone_x ≤ b.x ∧
          b.x ≤ zone_demo_state.screen_width ∧
          0 ≤ b.y ∧ b.y ≤ zone_demo_state.delete_zone_size))) ∧
    zone_demo_state.update.inventory =
      zone_demo_state.move_balls.handle_collisions.suction_phase.inventory ∧
    (∀ b, b ∈ zone_demo_state.move_balls.handle_collisions.suction_phase.inventory →
      b ∈ zone_demo_state.update.inventory) :=
  delete_zone_phase_after_suction zone_demo_state (by decide)
